import Mathlib

/-!
Shallow embedding of the ferrum Game Boy emulator core (Rust) in Lean 4,
together with theorems settling the specification claims C1..C10.

Conventions:
* Machine integers (u8/u16/u32/usize) are modelled as `Nat` with explicit
  `% 256` / `% 65536` where the Rust code wraps, and `&&&`, `|||`, `^^^`,
  `<<<`, `>>>` for the corresponding bitwise operators.
* Byte arrays and `Vec<u8>` are modelled as total functions `Nat → Nat`;
  array writes are functional overrides (`store`).
* Code paths that panic in Rust (`unwrap`, out-of-bounds indexing,
  explicit `panic!`) are modelled with `Option`, `none` meaning a panic.
-/

namespace Ferrum

/-- Functional override of a byte store: `store f a v` is `f` with index `a`
updated to `v`.  Models an array/`Vec` element assignment. -/
def store (f : Nat → Nat) (a v : Nat) : Nat → Nat :=
  fun x => if x = a then v else f x

/-- Value of `u8::trailing_zeros` for a byte (`n < 256`), as used by
`handle_interrupts` on `if_ & ie`.  Returns 8 when all eight low bits are 0. -/
def trailingZeros8 (n : Nat) : Nat :=
  if n &&& 0x01 ≠ 0 then 0
  else if n &&& 0x02 ≠ 0 then 1
  else if n &&& 0x04 ≠ 0 then 2
  else if n &&& 0x08 ≠ 0 then 3
  else if n &&& 0x10 ≠ 0 then 4
  else if n &&& 0x20 ≠ 0 then 5
  else if n &&& 0x40 ≠ 0 then 6
  else if n &&& 0x80 ≠ 0 then 7
  else 8

/-! ## Cartridge: MBC1 and RomOnly (src/cartridge/mbc1.rs, src/cartridge/mbc.rs) -/

/-- MBC1 banking mode (`enum BankMode`). -/
inductive BankMode where
  | rom
  | ram
deriving DecidableEq

/-- MBC1 cartridge state (`struct Mbc1`).  `rom`/`ram` are the byte buffers
(`Vec<u8>` modelled as functions), `bank` the combined bank register (u8),
`ramEnabled` the RAM-enable flag. -/
structure Mbc1 where
  rom : Nat → Nat
  ram : Nat → Nat
  bankMode : BankMode
  bank : Nat
  ramEnabled : Bool

/-- `Mbc1::new`: default bank mode ROM, bank register 0x01, RAM disabled. -/
def Mbc1.new (rom ram : Nat → Nat) : Mbc1 :=
  ⟨rom, ram, BankMode.rom, 0x01, false⟩

/-- `Mbc1::rom_bank`. -/
def Mbc1.romBank (m : Mbc1) : Nat :=
  match m.bankMode with
  | BankMode.rom => m.bank &&& 0x7f
  | BankMode.ram => m.bank &&& 0x1f

/-- `Mbc1::ram_bank`. -/
def Mbc1.ramBank (m : Mbc1) : Nat :=
  match m.bankMode with
  | BankMode.rom => 0x00
  | BankMode.ram => (m.bank &&& 0x60) >>> 5

/-- `<Mbc1 as Memory>::read8`.  Disabled external RAM reads return 0x00 in
this code (the `else` arm of the `0xa000..=0xbfff` case). -/
def Mbc1.read8 (m : Mbc1) (addr : Nat) : Nat :=
  if addr ≤ 0x3fff then m.rom addr
  else if addr ≤ 0x7fff then m.rom (m.romBank * 0x4000 + (addr - 0x4000))
  else if 0xa000 ≤ addr ∧ addr ≤ 0xbfff then
    if m.ramEnabled then m.ram (m.ramBank * 0x2000 + (addr - 0xa000))
    else 0x00
  else 0x00

/-- `<Mbc1 as Memory>::write8`.  The `0x6000..=0x7fff` arm panics on any
value other than 0 or 1 (`panic!("Invalid bank mode")`), modelled as `none`. -/
def Mbc1.write8 (m : Mbc1) (addr v : Nat) : Option Mbc1 :=
  if addr ≤ 0x1fff then some { m with ramEnabled := v &&& 0x0f == 0x0a }
  else if addr ≤ 0x3fff then
    some { m with bank := (m.bank &&& 0x60) ||| (if v &&& 0x1f = 0 then 0x01 else v &&& 0x1f) }
  else if addr ≤ 0x5fff then
    some { m with bank := (m.bank &&& 0x9f) ||| ((v &&& 0x03) <<< 5) }
  else if addr ≤ 0x7fff then
    if v = 0x00 then some { m with bankMode := BankMode.rom }
    else if v = 0x01 then some { m with bankMode := BankMode.ram }
    else none
  else if 0xa000 ≤ addr ∧ addr ≤ 0xbfff then
    if m.ramEnabled then
      some { m with ram := store m.ram (m.ramBank * 0x2000 + (addr - 0xa000)) v }
    else some m
  else some m

/-- Sequence of MBC control/data writes applied in order; `none` as soon as
one write panics.  Used to express reachability of MBC1 register states. -/
def Mbc1.applyWrites : List (Nat × Nat) → Mbc1 → Option Mbc1
  | [], m => some m
  | (a, v) :: ws, m => (m.write8 a v).bind (Mbc1.applyWrites ws)

/-- RomOnly cartridge (`struct RomOnly`): reads pass through, writes ignored. -/
structure RomOnly where
  rom : Nat → Nat

/-- `<RomOnly as Memory>::read8`. -/
def RomOnly.read8 (r : RomOnly) (addr : Nat) : Nat := r.rom addr

/-- Closed world of `Box<dyn Cartridge>` values: the two mapper variants
implemented by the code. -/
inductive Cart where
  | romOnly (r : RomOnly)
  | mbc1 (m : Mbc1)

/-- Dynamic dispatch of `Cartridge::read8`. -/
def Cart.read8 (c : Cart) (addr : Nat) : Nat :=
  match c with
  | Cart.romOnly r => r.read8 addr
  | Cart.mbc1 m => m.read8 addr

/-- Dynamic dispatch of `Cartridge::write8` (`RomOnly` ignores writes). -/
def Cart.write8 (c : Cart) (addr v : Nat) : Option Cart :=
  match c with
  | Cart.romOnly r => some (Cart.romOnly r)
  | Cart.mbc1 m => (m.write8 addr v).map Cart.mbc1

/-! ## Timer (src/timer/mod.rs, src/timer/clock.rs) -/

/-- `struct Clock`: a sub-cycle accumulator `n` that produces one tick every
`period` elapsed cycles. -/
structure Clock where
  period : Nat
  n : Nat
deriving DecidableEq

/-- `Clock::cycle`: returns the number of ticks and the updated accumulator. -/
def Clock.cycle (c : Clock) (cycles : Nat) : Nat × Clock :=
  let n := c.n + cycles
  (n / c.period, ⟨c.period, n % c.period⟩)

/-- Timer state (`struct Timer` + its `Register`).  `ifReg` models the
`Rc<RefCell<InterruptFlags>>` cell the timer holds (shared with the Mmu):
the raw IF byte. -/
structure Timer where
  ifReg : Nat
  div : Nat
  tima : Nat
  tma : Nat
  tac : Nat
  divClock : Clock
  tmaClock : Clock

/-- `Timer::new`: DIV clock period 256, TIMA clock period 1024, registers 0. -/
def Timer.new : Timer := ⟨0, 0, 0, 0, 0, ⟨256, 0⟩, ⟨1024, 0⟩⟩

/-- TIMA input-clock period selected by the low 2 bits of a TAC value, as in
`Timer::set`'s `match v & 0x03`. -/
def freqOf (v : Nat) : Nat :=
  if v &&& 0x03 = 0 then 1024
  else if v &&& 0x03 = 1 then 16
  else if v &&& 0x03 = 2 then 64
  else 256

/-- `Timer::get`.  The Mmu only forwards 0xFF04-0xFF07 here; on any other
address the source panics (that arm is unreachable from the Mmu dispatch). -/
def Timer.get (t : Timer) (a : Nat) : Nat :=
  if a = 0xff04 then t.div
  else if a = 0xff05 then t.tima
  else if a = 0xff06 then t.tma
  else t.tac

/-- `Timer::set`.  Writing DIV clears it and its sub-cycle accumulator;
writing TAC with a changed clock-select resets the TIMA accumulator, switches
the period and reloads TIMA from TMA.  The panicking default arm is
unreachable from the Mmu dispatch (addresses 0xFF04-0xFF07 only). -/
def Timer.set (t : Timer) (a v : Nat) : Timer :=
  if a = 0xff04 then { t with div := 0, divClock := ⟨t.divClock.period, 0⟩ }
  else if a = 0xff05 then { t with tima := v }
  else if a = 0xff06 then { t with tma := v }
  else if a = 0xff07 then
    if (t.tac &&& 0x03) ≠ (v &&& 0x03) then
      { t with tmaClock := ⟨freqOf v, 0⟩, tima := t.tma, tac := v }
    else { t with tac := v }
  else t

/-- Body of the TIMA increment loop in `Timer::cycle`: one wrapping
increment; on wrap past 0xFF reload from TMA and set IF bit 2 (Timer). -/
def timaStep (tma : Nat) (p : Nat × Nat) : Nat × Nat :=
  let t := (p.1 + 1) % 256
  if t = 0 then (tma, p.2 ||| 0x04) else (t, p.2)

/-- `Timer::cycle`: advance DIV by the DIV clock's ticks (cast to u8), and,
when TAC bit 2 is set, run the TIMA increment loop once per TIMA-clock tick. -/
def Timer.cycle (t : Timer) (cycles : Nat) : Timer :=
  let dres := t.divClock.cycle cycles
  let t1 : Timer := { t with div := (t.div + dres.1 % 256) % 256, divClock := dres.2 }
  if t1.tac &&& 0x04 ≠ 0 then
    let mres := t1.tmaClock.cycle cycles
    let r := (timaStep t1.tma)^[mres.1] (t1.tima, t1.ifReg)
    { t1 with tmaClock := mres.2, tima := r.1, ifReg := r.2 }
  else t1

/-! ## PPU memory interface (src/ppu/mod.rs) -/

/-- PPU state as seen by the memory interface: only the fields read or
written by `<Ppu as Memory>::read8/write8` are carried (VRAM, OAM, LCDC, LY);
the rendering state does not participate in those methods. -/
structure Ppu where
  vram : Nat → Nat
  oam : Nat → Nat
  lcdc : Nat
  ly : Nat

/-- `Ppu::new` (memory-visible fields): zeroed VRAM/OAM, LCDC 0, LY 0. -/
def Ppu.new : Ppu := ⟨fun _ => 0, fun _ => 0, 0, 0⟩

/-- `<Ppu as Memory>::read8`: VRAM, OAM, LCDC (0xFF40), LY (0xFF44); every
other PPU register address returns `UNDEFINED_READ` (0xFF). -/
def Ppu.read8 (p : Ppu) (addr : Nat) : Nat :=
  if 0x8000 ≤ addr ∧ addr ≤ 0x9fff then p.vram (addr - 0x8000)
  else if 0xfe00 ≤ addr ∧ addr ≤ 0xfe9f then p.oam (addr - 0xfe00)
  else if addr = 0xff40 then p.lcdc
  else if addr = 0xff44 then p.ly
  else 0xff

/-- `<Ppu as Memory>::write8`: VRAM/OAM stores and LCDC; writes to LY and the
remaining registers are ignored. -/
def Ppu.write8 (p : Ppu) (addr v : Nat) : Ppu :=
  if 0x8000 ≤ addr ∧ addr ≤ 0x9fff then { p with vram := store p.vram (addr - 0x8000) v }
  else if 0xfe00 ≤ addr ∧ addr ≤ 0xfe9f then { p with oam := store p.oam (addr - 0xfe00) v }
  else if addr = 0xff40 then { p with lcdc := v }
  else p

/-! ## MMU (src/mmu/mod.rs) -/

/-- Modelled from the spec: the boot ROM overlay bytes (`crate::boot::BOOTROM`)
are not part of src/; the spec only says addresses 0x0000-0x00FF read from
this overlay while it is enabled.  Its contents never matter to the claims,
so it is fixed to the zero function. -/
def BOOTROM : Nat → Nat := fun _ => 0

/-- MMU state (`struct Mmu`).  The timer owns the shared IF cell (`ifReg`),
mirroring the `Rc<RefCell<InterruptFlags>>` aliasing in the source: reads and
writes of 0xFF0F go to `timer.ifReg`. -/
structure Mmu where
  cart : Cart
  timer : Timer
  ppu : Ppu
  wram0 : Nat → Nat
  wramx : Nat → Nat
  io : Nat → Nat
  hram : Nat → Nat
  ie : Nat

/-- `<Mmu as Memory>::read8`: the address-decoding table.  Branches follow
the source match arms in order; the final branch covers 0xFFFF (IE), and the
prohibited range 0xFEA0-0xFEFF returns 0x00. -/
def Mmu.read8 (m : Mmu) (addr : Nat) : Nat :=
  if addr ≤ 0x3fff then
    if addr ≤ 0xff ∧ m.io 0x50 = 0 then BOOTROM addr
    else m.cart.read8 addr
  else if addr ≤ 0x7fff then m.cart.read8 addr
  else if addr ≤ 0x9fff then m.ppu.read8 addr
  else if addr ≤ 0xbfff then m.cart.read8 addr
  else if addr ≤ 0xcfff then m.wram0 (addr &&& 0x0fff)
  else if addr ≤ 0xdfff then m.wramx (addr &&& 0x0fff)
  else if addr ≤ 0xefff then m.wram0 (addr &&& 0x0fff)
  else if addr ≤ 0xfdff then m.wramx (addr &&& 0x0fff)
  else if addr ≤ 0xfe9f then m.ppu.read8 addr
  else if addr ≤ 0xfeff then 0x00
  else if addr ≤ 0xff7f then
    if addr = 0xff0f then m.timer.ifReg
    else if 0xff04 ≤ addr ∧ addr ≤ 0xff07 then m.timer.get addr
    else if 0xff40 ≤ addr ∧ addr ≤ 0xff4b then m.ppu.read8 addr
    else m.io (addr - 0xff00)
  else if addr ≤ 0xfffe then m.hram (addr - 0xff80)
  else m.ie

/-- `<Mmu as Memory>::write8`.  The cartridge write can panic (MBC1 mode
register), hence `Option`.  The 0xFF01 serial arm prints the byte (an I/O
effect outside the state) and stores it in the raw register array. -/
def Mmu.write8 (m : Mmu) (addr v : Nat) : Option Mmu :=
  if addr ≤ 0x7fff then (m.cart.write8 addr v).map (fun c => { m with cart := c })
  else if addr ≤ 0x9fff then some { m with ppu := m.ppu.write8 addr v }
  else if addr ≤ 0xbfff then (m.cart.write8 addr v).map (fun c => { m with cart := c })
  else if addr ≤ 0xcfff then some { m with wram0 := store m.wram0 (addr &&& 0x0fff) v }
  else if addr ≤ 0xdfff then some { m with wramx := store m.wramx (addr &&& 0x0fff) v }
  else if addr ≤ 0xefff then some { m with wram0 := store m.wram0 (addr &&& 0x0fff) v }
  else if addr ≤ 0xfdff then some { m with wramx := store m.wramx (addr &&& 0x0fff) v }
  else if addr ≤ 0xfe9f then some { m with ppu := m.ppu.write8 addr v }
  else if addr ≤ 0xfeff then some m
  else if addr ≤ 0xff7f then
    if addr = 0xff0f then some { m with timer := { m.timer with ifReg := v } }
    else if addr = 0xff01 then some { m with io := store m.io (addr - 0xff00) v }
    else if 0xff04 ≤ addr ∧ addr ≤ 0xff07 then some { m with timer := m.timer.set addr v }
    else if 0xff40 ≤ addr ∧ addr ≤ 0xff4b then some { m with ppu := m.ppu.write8 addr v }
    else some { m with io := store m.io (addr - 0xff00) v }
  else if addr ≤ 0xfffe then some { m with hram := store m.hram (addr - 0xff80) v }
  else some { m with ie := v }

/-- `<Mmu as Memory>::read16`: little endian, low byte at `addr`, high byte
at `addr + 1`.  The source computes `addr + 1` on a u16, which leaves the
type's range at 0xFFFF (a debug-mode panic); the `% 0x10000` here is the
wrapping (release-mode) reading.  The claims are settled for `addr ≤ 0xFFFE`,
where both readings agree. -/
def Mmu.read16 (m : Mmu) (addr : Nat) : Nat :=
  m.read8 addr ||| (m.read8 ((addr + 1) % 0x10000)) <<< 8

/-- `<Mmu as Memory>::write16`: low byte to `addr`, high byte to `addr + 1`
(same u16 `addr + 1` remark as `read16`). -/
def Mmu.write16 (m : Mmu) (addr v : Nat) : Option Mmu :=
  (m.write8 addr (v &&& 0xff)).bind (fun m2 => m2.write8 ((addr + 1) % 0x10000) (v >>> 8))

/-! ## Opcode table (src/cpu/opcodes.rs) -/

/-- `struct OpCode`: opcode byte, mnemonic, byte length, duration in cycles
(the file's comment fixes the unit: system clock ticks, i.e. T-states). -/
structure OpCode where
  op : Nat
  mnemonic : String
  length : Nat
  cycles : Nat
deriving DecidableEq

/-- `CPU_OP_CODES`: the complete contents of the lazily initialised opcode
vector.  The source's TODO notwithstanding, only these four entries exist,
and no `CB_OPCODES_MAP` is defined in opcodes.rs at all. -/
def CPU_OP_CODES : List OpCode :=
  [⟨0x00, "NOP", 1, 4⟩,
   ⟨0x01, "LD BC, d16", 3, 12⟩,
   ⟨0x02, "LD (BC), A", 1, 8⟩,
   ⟨0x03, "INC BC", 1, 8⟩]

/-- Lookup in `OPCODES_MAP` (the HashMap built from `CPU_OP_CODES`; opcode
bytes are distinct, so the map lookup is the list search). -/
def opcodesMap (op : Nat) : Option OpCode :=
  CPU_OP_CODES.find? (fun oc => oc.op == op)

/-! ## CPU (src/cpu/mod.rs, src/cpu/registers.rs, src/cpu/execute.rs)

The Cpu operates on memory only through the `Memory` trait
(`Rc<RefCell<dyn Memory>>`), so its embedding carries an abstract byte store
`mem : Nat → Nat`; `read8` truncates to a byte (the trait returns u8) and
`read16`/`write16` are the little-endian byte pairs every implementor of the
trait uses. -/

/-- CPU state: the eight 8-bit registers (F holds the flags byte), SP/PC,
IME, the halt flag, the cycle counters, and the abstract memory. -/
structure Cpu where
  a : Nat
  b : Nat
  c : Nat
  d : Nat
  e : Nat
  f : Nat
  h : Nat
  l : Nat
  sp : Nat
  pc : Nat
  ime : Bool
  halt : Bool
  cycles : Nat
  maxCycles : Nat
  mem : Nat → Nat

/-- `Cpu::power_on` composed with `Registers::new`: all registers zero,
IME set, cycle counter 0, max 4194304. -/
def Cpu.powerOn (mem : Nat → Nat) : Cpu :=
  ⟨0, 0, 0, 0, 0, 0, 0, 0, 0, 0, true, false, 0, 4194304, mem⟩

/-- `Cpu::test_set_boot_regs`: the post-boot-ROM register values. -/
def Cpu.testSetBootRegs (s : Cpu) : Cpu :=
  { s with a := 0x01, f := 0xb0, b := 0x00, c := 0x13, d := 0x00, e := 0xd8,
           h := 0x01, l := 0x4d, pc := 0x0100, sp := 0xfffe }

/-- Memory-trait `read8` as the Cpu sees it (u8 return). -/
def Cpu.mread8 (s : Cpu) (addr : Nat) : Nat := s.mem addr % 256

/-- Memory-trait `write8` as the Cpu sees it (u8 argument). -/
def Cpu.mwrite8 (s : Cpu) (addr v : Nat) : Cpu :=
  { s with mem := store s.mem addr (v % 256) }

/-- Memory-trait `read16`: little endian, as every `Memory` implementor in
the source defines it.  The `addr + 1` is a u16 addition: it wraps modulo
2^16 (debug builds panic at `addr = 0xFFFF`). -/
def Cpu.mread16 (s : Cpu) (addr : Nat) : Nat :=
  s.mread8 addr ||| (s.mread8 ((addr + 1) % 0x10000)) <<< 8

/-- Memory-trait `write16`: low byte at `addr`, high byte at `addr + 1`,
where `addr + 1` is a u16 addition wrapping modulo 2^16 (debug builds panic
at `addr = 0xFFFF`). -/
def Cpu.mwrite16 (s : Cpu) (addr v : Nat) : Cpu :=
  (s.mwrite8 addr (v &&& 0xff)).mwrite8 ((addr + 1) % 0x10000) (v >>> 8)

/-- `Registers::read16` for BC. -/
def Cpu.readBC (s : Cpu) : Nat := (s.b <<< 8) ||| s.c

/-- `Registers::write16` for BC. -/
def Cpu.writeBC (s : Cpu) (v : Nat) : Cpu :=
  { s with b := (v >>> 8) % 256, c := v % 256 }

/-- `Registers::inc_pc`: PC wraps modulo 65536 (the overflow branch only
logs). -/
def Cpu.incPc (s : Cpu) (n : Nat) : Cpu :=
  { s with pc := (s.pc + n) % 0x10000 }

/-- Modelled from the spec: `dec_sp` is called by `stack_push` in execute.rs
but absent from the registers.rs in src/; the spec fixes SP arithmetic to
wrap modulo 65536. -/
def Cpu.decSp (s : Cpu) (n : Nat) : Cpu :=
  { s with sp := (s.sp + 0x10000 - n % 0x10000) % 0x10000 }

/-- `Cpu::stack_push`: decrement SP by 2, then write16 the value at SP. -/
def Cpu.stackPush (s : Cpu) (v : Nat) : Cpu :=
  let s1 := s.decSp 2
  s1.mwrite16 s1.sp v

/-- `Cpu::fetch`: read the byte at PC. -/
def Cpu.fetch (s : Cpu) : Nat := s.mread8 s.pc

/-- `Cpu::imm8`: read the byte at PC, then advance PC by 1. -/
def Cpu.imm8 (s : Cpu) : Nat × Cpu := (s.mread8 s.pc, s.incPc 1)

/-- `Cpu::imm16`: read the word at PC (little endian), then advance PC by 2.
Note PC still points at the opcode byte when `op_execute` calls this. -/
def Cpu.imm16 (s : Cpu) : Nat × Cpu := (s.mread16 s.pc, s.incPc 2)

/-- Flag accessors (`Registers::zf/nf/hf/cf`): bits 7/6/5/4 of F. -/
def Cpu.zf (s : Cpu) : Bool := s.f &&& 0x80 != 0

/-- `Registers::nf`. -/
def Cpu.nf (s : Cpu) : Bool := s.f &&& 0x40 != 0

/-- `Registers::hf`. -/
def Cpu.hf (s : Cpu) : Bool := s.f &&& 0x20 != 0

/-- `Registers::cf`. -/
def Cpu.cf (s : Cpu) : Bool := s.f &&& 0x10 != 0

/-- `Registers::set_zf` (bitflags set/remove of bit 7). -/
def Cpu.setZf (s : Cpu) (v : Bool) : Cpu :=
  { s with f := if v then s.f ||| 0x80 else s.f &&& (0xff ^^^ 0x80) }

/-- `Registers::set_nf`. -/
def Cpu.setNf (s : Cpu) (v : Bool) : Cpu :=
  { s with f := if v then s.f ||| 0x40 else s.f &&& (0xff ^^^ 0x40) }

/-- `Registers::set_hf`. -/
def Cpu.setHf (s : Cpu) (v : Bool) : Cpu :=
  { s with f := if v then s.f ||| 0x20 else s.f &&& (0xff ^^^ 0x20) }

/-- `Registers::set_cf`. -/
def Cpu.setCf (s : Cpu) (v : Bool) : Cpu :=
  { s with f := if v then s.f ||| 0x10 else s.f &&& (0xff ^^^ 0x10) }

/-- `Cpu::handle_interrupts`.  Guards in source order; on dispatch: clear IME
and halt, push PC, clear the lowest set bit of `if_ & ie` in IF, jump to the
vector, return 4.  The vector `match` panics (`none`) when the lowest pending
bit index exceeds 4. -/
def Cpu.handleInterrupts (s : Cpu) : Option (Cpu × Nat) :=
  if s.halt ∧ ¬ s.ime then some (s, 0)
  else
    let ie := s.mread8 0xffff
    let if0 := s.mread8 0xff0f
    if ¬ s.ime then some (s, 0)
    else if ie = 0 then some (s, 0)
    else if if0 = 0 then some (s, 0)
    else if ie &&& if0 = 0 then some (s, 0)
    else
      let s1 := { s with ime := false, halt := false }
      let s2 := s1.stackPush s1.pc
      let i := trailingZeros8 (if0 &&& ie)
      let s3 := s2.mwrite8 0xff0f (if0 &&& (0xff ^^^ (1 <<< i)))
      if i ≤ 4 then some ({ s3 with pc := 0x0040 + 8 * i }, 4) else none

/-- `Cpu::op_execute`.  The first statement is
`opcodes.get(&op).unwrap()` against `OPCODES_MAP`; a missing entry is a
panic (`none`).  Because the map only contains 0x00-0x03, only those four
match arms are reachable; they are embedded here (NOP, LD BC d16, LD (BC) A,
INC BC).  The function returns the consumed cycle count. -/
def Cpu.opExecute (s : Cpu) (op : Nat) : Option (Cpu × Nat) :=
  match opcodesMap op with
  | none => none
  | some oc =>
    if op = 0x00 then some (s, oc.cycles)
    else if op = 0x01 then
      let r := s.imm16
      some (r.2.writeBC r.1, oc.cycles)
    else if op = 0x02 then some (s.mwrite8 s.readBC s.a, oc.cycles)
    else if op = 0x03 then some (s.writeBC ((s.readBC + 1) % 0x10000), oc.cycles)
    else some (s, oc.cycles)

/-- `Cpu::cycle`.  Note a source inconsistency: mod.rs destructures
`let (len, cycle) = self.op_execute(op)` while execute.rs declares
`op_execute` returning a single `u32` cycle count (the two files do not
type-check together).  The composition is embedded with `len` taken from the
opcode-table entry (its `length` field, the only length available) and
`cycle` the value `op_execute` returns, then `inc_pc(len)` and the cycle
accumulation as written in mod.rs, including the max-cycles reset. -/
def Cpu.cycle (s : Cpu) : Option Cpu :=
  (s.handleInterrupts).bind (fun hi =>
    let s1 := { hi.1 with cycles := hi.1.cycles + hi.2 }
    let step : Option Cpu :=
      if s1.halt then some s1
      else
        (opcodesMap s1.fetch).bind (fun oc =>
          (s1.opExecute s1.fetch).map (fun r =>
            let s2 := r.1.incPc oc.length
            { s2 with cycles := s2.cycles + r.2 }))
    step.map (fun s2 => if s2.cycles > s2.maxCycles then { s2 with cycles := 0 } else s2))

/-- `Cpu::alu_daa` (the DAA instruction): carry/half-carry-conditioned BCD
adjustment; always clears H; sets C only via the 0x60 branch. -/
def Cpu.aluDaa (s : Cpu) : Cpu :=
  let a := s.a
  let adjust1 : Nat := if s.hf ∨ (¬ s.nf ∧ a &&& 0x0f > 0x09) then 0x06 else 0x00
  let hit60 : Bool := s.cf ∨ (¬ s.nf ∧ a > 0x99)
  let adjust : Nat := if hit60 then adjust1 ||| 0x60 else adjust1
  let s1 := if hit60 then s.setCf true else s
  let a1 := if s1.nf then (a + 256 - adjust % 256) % 256 else (a + adjust) % 256
  let s2 := (s1.setZf (a1 == 0)).setHf false
  { s2 with a := a1 }

/-! ## Pixel FIFO and fetcher (src/ppu/fifo.rs, src/ppu/fetcher.rs) -/

/-- VRAM array length (`VRAM_SIZE`, 8 KiB). -/
def VRAM_SIZE : Nat := 0x2000

/-- Indexing into the `[u8; VRAM_SIZE]` array: out-of-bounds indexing is a
Rust panic, modelled as `none`. -/
def vramGet (vram : Nat → Nat) (i : Nat) : Option Nat :=
  if i < VRAM_SIZE then some (vram i) else none

/-- `struct Fifo`: a fixed 16-slot ring buffer. -/
structure Fifo where
  data : Nat → Nat
  tail : Nat
  head : Nat
  size : Nat

/-- `Fifo::new`. -/
def Fifo.new : Fifo := ⟨fun _ => 0, 0, 0, 0⟩

/-- `Fifo::push`: panics (`none`) when full. -/
def Fifo.push (q : Fifo) (v : Nat) : Option Fifo :=
  if q.size = 16 then none
  else some ⟨store q.data q.head v, q.tail, (q.head + 1) % 16, q.size + 1⟩

/-- `Fifo::clear`. -/
def Fifo.clear (q : Fifo) : Fifo := { q with tail := 0, head := 0, size := 0 }

/-- The 4 fetcher states (`enum FetcherState`). -/
inductive FetcherState where
  | readTileId
  | readTileData0
  | readTileData1
  | pushToFifo
deriving DecidableEq

/-- `struct Fetcher`: the FIFO, the shared VRAM/OAM arrays, the half-rate
tick counter, the state machine and the tile bookkeeping.  `tileData` models
the `[u8; 8]` row buffer. -/
structure Fetcher where
  fifo : Fifo
  vram : Nat → Nat
  oam : Nat → Nat
  ticks : Nat
  state : FetcherState
  mapAddr : Nat
  dataAddr : Nat
  tileLine : Nat
  tileIndex : Nat
  tileId : Nat
  tileData : Nat → Nat

/-- `Fetcher::new`. -/
def Fetcher.new (vram oam : Nat → Nat) : Fetcher :=
  ⟨Fifo.new, vram, oam, 0, FetcherState.readTileId, 0, 0, 0, 0, 0, fun _ => 0⟩

/-- `Fetcher::start`: latch map address and tile line, reset the tile index
and state, clear the FIFO. -/
def Fetcher.start (f : Fetcher) (mapAddr tileLine : Nat) : Fetcher :=
  { f with mapAddr := mapAddr, tileLine := tileLine, tileIndex := 0,
           state := FetcherState.readTileId, fifo := f.fifo.clear }

/-- `Fetcher::read_tile_line`: computes the tile-data address
`0x8000 + tile_id * 16 + tile_line * 2` and indexes the VRAM array with
`addr + bit_plane` directly (no base subtraction), then merges the bit plane
into the 8-pixel row buffer. -/
def Fetcher.readTileLine (f : Fetcher) (bitPlane : Nat) : Option Fetcher :=
  let offset := 0x8000 + f.tileId * 16
  let addr := offset + f.tileLine * 2
  (vramGet f.vram (addr + bitPlane)).map (fun pixelData =>
    { f with tileData := fun bitPos =>
        if bitPos < 8 then
          if bitPlane = 0 then (pixelData >>> bitPos) &&& 0x01
          else f.tileData bitPos ||| (((pixelData >>> bitPos) &&& 0x01) <<< 1)
        else f.tileData bitPos })

/-- Pushing the 8 decoded pixels `tile_data[7], ..., tile_data[0]` into the
FIFO (the `for i in (0..8).rev()` loop in the PushToFifo arm). -/
def Fifo.push8 (q : Fifo) (td : Nat → Nat) : Option Fifo :=
  (q.push (td 7)).bind (fun q => (q.push (td 6)).bind (fun q =>
    (q.push (td 5)).bind (fun q => (q.push (td 4)).bind (fun q =>
      (q.push (td 3)).bind (fun q => (q.push (td 2)).bind (fun q =>
        (q.push (td 1)).bind (fun q => q.push (td 0))))))))

/-- `Fetcher::tick`: every second call executes one step of the 4-state
machine; ReadTileId indexes the VRAM array at `map_addr + tile_index`
directly; PushToFifo pushes the decoded row when the FIFO holds at most 8
pixels. -/
def Fetcher.tick (f : Fetcher) : Option Fetcher :=
  let f := { f with ticks := (f.ticks + 1) % 256 }
  if f.ticks < 2 then some f
  else
    let f := { f with ticks := 0 }
    match f.state with
    | FetcherState.readTileId =>
      (vramGet f.vram (f.mapAddr + f.tileIndex)).map (fun tid =>
        { f with tileId := tid, state := FetcherState.readTileData0 })
    | FetcherState.readTileData0 =>
      (f.readTileLine 0).map (fun g => { g with state := FetcherState.readTileData1 })
    | FetcherState.readTileData1 =>
      (f.readTileLine 1).map (fun g => { g with state := FetcherState.pushToFifo })
    | FetcherState.pushToFifo =>
      if f.fifo.size ≤ 8 then
        (f.fifo.push8 f.tileData).map (fun q =>
          { f with fifo := q, tileIndex := (f.tileIndex + 1) % 256,
                   state := FetcherState.readTileId })
      else some f

/-! ## Concrete fixtures used by the counterexamples and witnesses -/

/-- Zero byte store. -/
def zeroMem : Nat → Nat := fun _ => 0

/-- ROM image with `LD BC, 0x1234` (bytes 0x01 0x34 0x12) at the entry point
0x0100. -/
def romLdBC : Nat → Nat := fun a =>
  if a = 0x0100 then 0x01 else if a = 0x0101 then 0x34 else if a = 0x0102 then 0x12 else 0

/-- CPU powered on over an all-NOP memory, registers at post-boot values
(PC = 0x0100). -/
def cpuNop : Cpu := (Cpu.powerOn zeroMem).testSetBootRegs

/-- CPU powered on over `romLdBC`, registers at post-boot values. -/
def cpuLdBC : Cpu := (Cpu.powerOn romLdBC).testSetBootRegs

/-- Memory with IE = IF = 0b11 (VBlank and LCD-STAT both enabled and
pending), zero elsewhere. -/
def memVblankStat : Nat → Nat := fun a =>
  if a = 0xffff then 0x03 else if a = 0xff0f then 0x03 else 0

/-- CPU at post-boot registers with IME set and IE = IF = 0b11. -/
def cpuIntPending : Cpu := (Cpu.powerOn memVblankStat).testSetBootRegs

/-- Memory with IE = IF = 0b1 (VBlank enabled and pending). -/
def memVblank : Nat → Nat := fun a =>
  if a = 0xffff then 0x01 else if a = 0xff0f then 0x01 else 0

/-- Halted CPU with IME clear and a pending, enabled VBlank interrupt. -/
def cpuHaltedNoIme : Cpu :=
  { (Cpu.powerOn memVblank).testSetBootRegs with halt := true, ime := false }

/-- Halted CPU with IME set and a pending, enabled VBlank interrupt. -/
def cpuHaltedIme : Cpu :=
  { (Cpu.powerOn memVblank).testSetBootRegs with halt := true }

/-- MMU over an all-zero MBC1 cartridge, power-on component states. -/
def mmuTest : Mmu :=
  { cart := Cart.mbc1 (Mbc1.new zeroMem zeroMem), timer := Timer.new, ppu := Ppu.new,
    wram0 := zeroMem, wramx := zeroMem, io := zeroMem, hram := zeroMem, ie := 0 }

/-- Fresh MBC1 cartridge over zero ROM/RAM (RAM disabled by default). -/
def mbc1Fresh : Mbc1 := Mbc1.new zeroMem zeroMem

/-- Timer with TAC = 0b101 (enabled, clock-select 1 so N = 16), TIMA = 0xFF,
TMA = 0x07, matching accumulator period. -/
def timerEnabled : Timer := ⟨0, 0, 0xff, 0x07, 0x05, ⟨256, 0⟩, ⟨16, 0⟩⟩

/-- Timer with TAC enable bit clear but a nonzero TIMA. -/
def timerDisabled : Timer := ⟨0, 0, 0x42, 0x07, 0x01, ⟨256, 0⟩, ⟨16, 0⟩⟩

/-- Fetcher over zero VRAM/OAM, started at map address 0, tile line 0. -/
def fetcherStarted : Fetcher := (Fetcher.new zeroMem zeroMem).start 0 0

/-- CPU state A = 0x42 with Subtract and Half-Carry set, Carry clear
(F = 0b0110_0000), as left by a SUB that half-borrowed. -/
def cpuDaa : Cpu := { Cpu.powerOn zeroMem with a := 0x42, f := 0x60 }

/-! ## Helper lemmas on Nat bit arithmetic -/

theorem land_ff (x : Nat) : x &&& 0xff = x % 256 := by
  have h := Nat.and_pow_two_sub_one_eq_mod x 8
  norm_num at h
  exact h

theorem land_1f (x : Nat) : x &&& 0x1f = x % 32 := by
  have h := Nat.and_pow_two_sub_one_eq_mod x 5
  norm_num at h
  exact h

theorem land_fff (x : Nat) : x &&& 0x0fff = x % 4096 := by
  have h := Nat.and_pow_two_sub_one_eq_mod x 12
  norm_num at h
  exact h

theorem or_mod_two_pow (a b n : Nat) : (a ||| b) % 2 ^ n = a % 2 ^ n ||| b % 2 ^ n := by
  apply Nat.eq_of_testBit_eq
  intro i
  simp only [Nat.testBit_mod_two_pow, Nat.testBit_or]
  by_cases h : i < n <;> simp [h]

theorem and_mod_two_pow (a b n : Nat) : (a &&& b) % 2 ^ n = a % 2 ^ n &&& b % 2 ^ n := by
  apply Nat.eq_of_testBit_eq
  intro i
  simp only [Nat.testBit_mod_two_pow, Nat.testBit_and]
  by_cases h : i < n <;> simp [h]

theorem lor_shiftLeft_eq_add (k lo hi : Nat) (h : lo < 2 ^ k) :
    lo ||| (hi <<< k) = 2 ^ k * hi + lo := by
  apply Nat.eq_of_testBit_eq
  intro i
  rw [Nat.testBit_or, Nat.testBit_shiftLeft, Nat.testBit_mul_pow_two_add hi h i]
  by_cases hi' : i < k
  · simp [hi', Nat.not_le_of_lt hi']
  · have hk : k ≤ i := Nat.le_of_not_lt hi'
    have : lo < 2 ^ i := Nat.lt_of_lt_of_le h (Nat.pow_le_pow_right (by norm_num) hk)
    simp [hi', hk, Nat.testBit_lt_two_pow this]

theorem byte_recompose (v : Nat) :
    (v &&& 0xff) ||| ((v >>> 8) <<< 8) = v := by
  rw [land_ff]
  have h2 : v % 256 < 2 ^ 8 := by omega
  rw [lor_shiftLeft_eq_add 8 (v % 256) (v >>> 8) h2, Nat.shiftRight_eq_div_pow]
  norm_num
  omega

/-! ## Claim C1 -/

set_option maxRecDepth 4000 in
/-- Claim C1 (code bug): the opcode lookup is not total.  `OPCODES_MAP`
contains only the entries 0x00-0x03, so `op_execute`'s
`opcodes.get(&op).unwrap()` panics for opcode 0x04 (INC B) — an opcode whose
semantics the `match` below the unwrap does implement — and for every other
opcode byte ≥ 0x04; no CB-prefix table exists at all.  The lookup succeeds
exactly on 0x00-0x03. -/
theorem opcode_lookup_panics_on_0x04 :
    opcodesMap 0x04 = none ∧ (cpuNop.opExecute 0x04) = none ∧
    (∀ op : Nat, op < 256 → (opcodesMap op).isSome = true → op ≤ 0x03) := by
  refine ⟨rfl, rfl, ?_⟩
  decide

/-! ## Claim C2 -/

/-- Claim C2 (code bug): stepping the CPU once.  The NOP half of the claim
holds (PC advances by 1 from 0x0100 to 0x0101, 4 T-cycles), but on
`LD BC,0x1234` (bytes 0x01 0x34 0x12 at 0x0100) the embedded composition of
`Cpu::cycle` and `op_execute`/`imm16` yields BC = 0x3401 and PC = 0x0105
(not BC = 0x1234, PC = 0x0103): `imm16` reads the 16-bit operand at the
pre-increment PC — the opcode's own address — and advances PC by 2, after
which `cycle` adds the table length 3 again. -/
theorem cycle_ld_bc_misreads_operand :
    (cpuNop.cycle).map (fun s => (s.pc, s.cycles)) = some (0x0101, 4) ∧
    (cpuLdBC.cycle).map (fun s => (s.readBC, s.pc, s.cycles)) = some (0x3401, 0x0105, 12) := by
  constructor <;> rfl

/-! ## Claim C10 -/

/-- Claim C10 (code bug): the fetcher's tile-data read always indexes the
8 KiB VRAM array out of bounds.  Starting the fetcher at map address 0 and
tile line 0 over zeroed VRAM, the fourth tick (the second executed step,
ReadTileData0) computes index 0x8000 + tile_id*16 + tile_line*2 = 0x8000
into the `[u8; 0x2000]` array and panics. -/
theorem fetcher_fourth_tick_panics :
    ((((fetcherStarted.tick).bind Fetcher.tick).bind Fetcher.tick).bind Fetcher.tick) = none := by
  rfl

/-! ## Projection lemmas for the CPU state operations -/

theorem mwrite8_mem (s : Cpu) (a v : Nat) : (s.mwrite8 a v).mem = store s.mem a (v % 256) := rfl

theorem mwrite8_pc (s : Cpu) (a v : Nat) : (s.mwrite8 a v).pc = s.pc := rfl

theorem mwrite8_sp (s : Cpu) (a v : Nat) : (s.mwrite8 a v).sp = s.sp := rfl

theorem mwrite8_ime (s : Cpu) (a v : Nat) : (s.mwrite8 a v).ime = s.ime := rfl

theorem mwrite8_halt (s : Cpu) (a v : Nat) : (s.mwrite8 a v).halt = s.halt := rfl

set_option maxRecDepth 4000 in
theorem stackPush_sp (s : Cpu) (v : Nat) :
    (s.stackPush v).sp = (s.sp + 0x10000 - 2) % 0x10000 := rfl

set_option maxRecDepth 4000 in
theorem stackPush_mem (s : Cpu) (v : Nat) :
    (s.stackPush v).mem =
      store (store s.mem ((s.sp + 0x10000 - 2) % 0x10000) ((v &&& 0xff) % 256))
        (((s.sp + 0x10000 - 2) % 0x10000 + 1) % 0x10000) ((v >>> 8) % 256) := rfl

theorem stackPush_pc (s : Cpu) (v : Nat) : (s.stackPush v).pc = s.pc := by
  simp [Cpu.stackPush, Cpu.mwrite16, Cpu.mwrite8, Cpu.decSp]

theorem stackPush_ime (s : Cpu) (v : Nat) : (s.stackPush v).ime = s.ime := by
  simp [Cpu.stackPush, Cpu.mwrite16, Cpu.mwrite8, Cpu.decSp]

theorem stackPush_halt (s : Cpu) (v : Nat) : (s.stackPush v).halt = s.halt := by
  simp [Cpu.stackPush, Cpu.mwrite16, Cpu.mwrite8, Cpu.decSp]

/-! ## Shared characterisation of a firing interrupt dispatch -/

set_option maxRecDepth 4000 in
/-- When IME is set and some enabled interrupt is pending,
`Cpu::handle_interrupts` clears IME and halt, pushes PC, clears the lowest
pending bit in IF, jumps to the vector and returns 4 — or panics when that
lowest bit index exceeds 4. -/
theorem handleInterrupts_fires (s : Cpu) (hime : s.ime = true)
    (hpend : s.mread8 0xffff &&& s.mread8 0xff0f ≠ 0) :
    s.handleInterrupts =
      (if trailingZeros8 (s.mread8 0xff0f &&& s.mread8 0xffff) ≤ 4 then
        some ({ (({ s with ime := false, halt := false } : Cpu).stackPush s.pc).mwrite8 0xff0f
                  (s.mread8 0xff0f &&& (0xff ^^^ (1 <<< trailingZeros8 (s.mread8 0xff0f &&& s.mread8 0xffff)))) with
                pc := 0x0040 + 8 * trailingZeros8 (s.mread8 0xff0f &&& s.mread8 0xffff) }, 4)
      else none) := by
  have hie : s.mread8 0xffff ≠ 0 := by
    intro h
    apply hpend
    rw [h, Nat.zero_and]
  have hif : s.mread8 0xff0f ≠ 0 := by
    intro h
    apply hpend
    rw [h, Nat.and_zero]
  show (if s.halt ∧ ¬ s.ime then some (s, 0)
    else if ¬ s.ime then some (s, 0)
    else if s.mread8 0xffff = 0 then some (s, 0)
    else if s.mread8 0xff0f = 0 then some (s, 0)
    else if s.mread8 0xffff &&& s.mread8 0xff0f = 0 then some (s, 0)
    else _) = _
  rw [if_neg (by simp [hime]), if_neg (by simp [hime]), if_neg hie, if_neg hif, if_neg hpend]

/-- A byte AND-masked with the complement of a low bit stays below 256. -/
theorem masked_byte_lt (x i : Nat) (hi : i ≤ 7) : x &&& (0xff ^^^ (1 <<< i)) < 256 := by
  have h1 : (1 <<< i) < 2 ^ 8 := by
    rw [Nat.shiftLeft_eq, one_mul]
    exact Nat.lt_of_le_of_lt (Nat.pow_le_pow_right (by norm_num) hi) (by norm_num)
  have h2 : (0xff ^^^ (1 <<< i)) < 2 ^ 8 := Nat.xor_lt_two_pow (by norm_num) h1
  exact Nat.and_lt_two_pow x h2

/-! ## Store lookup lemmas -/

theorem store_same (f : Nat → Nat) (a v : Nat) : store f a v a = v := by
  simp [store]

theorem store_other (f : Nat → Nat) (a v x : Nat) (h : x ≠ a) : store f a v x = f x := by
  simp [store, h]

/-! ## Claim C3 -/

/-- Claim C3 counterexample: with IME set and IF = IE = 0b11 the dispatch
returns 4 — the value added to the (T-state) cycle counter — not the 16
T-cycles the claim states. -/
theorem interrupt_dispatch_not_16_cycles :
    (cpuIntPending.handleInterrupts).map (fun p => p.2) = some 4 ∧ (4 : Nat) ≠ 16 := by
  exact ⟨by decide, by decide⟩

/-- Claim C3 (amended): when IME is set, `IE & IF != 0`, the lowest set bit
of `IF & IE` has index ≤ 4 (higher indices panic in the vector match), and
the post-decrement stack slots — `(SP-2) mod 2^16` and its u16 successor,
which wraps modulo 2^16 — do not collide with 0xFF0F, the CPU clears IME
(and halt), clears exactly that lowest bit of IF leaving all other IF bits
unchanged, pushes PC onto the stack little-endian, jumps to 0x0040 + 8·i,
and the dispatch returns 4 cycle units (not 16). -/
theorem interrupt_dispatch_spec (s : Cpu)
    (hime : s.ime = true)
    (hpend : s.mread8 0xffff &&& s.mread8 0xff0f ≠ 0)
    (hlow : trailingZeros8 (s.mread8 0xff0f &&& s.mread8 0xffff) ≤ 4)
    (hsp1 : (s.sp + 0x10000 - 2) % 0x10000 ≠ 0xff0f)
    (hsp2 : ((s.sp + 0x10000 - 2) % 0x10000 + 1) % 0x10000 ≠ 0xff0f) :
    (s.handleInterrupts).map (fun p => (p.1.ime, p.1.halt, p.1.pc, p.1.sp, p.2)) =
      some (false, false, 0x0040 + 8 * trailingZeros8 (s.mread8 0xff0f &&& s.mread8 0xffff),
            (s.sp + 0x10000 - 2) % 0x10000, 4) ∧
    (s.handleInterrupts).map (fun p => p.1.mem 0xff0f) =
      some (s.mread8 0xff0f &&&
        (0xff ^^^ (1 <<< trailingZeros8 (s.mread8 0xff0f &&& s.mread8 0xffff)))) ∧
    (s.handleInterrupts).map (fun p => p.1.mem ((s.sp + 0x10000 - 2) % 0x10000)) =
      some (s.pc % 256) ∧
    (s.handleInterrupts).map (fun p => p.1.mem (((s.sp + 0x10000 - 2) % 0x10000 + 1) % 0x10000)) =
      some (s.pc / 256 % 256) ∧
    (∀ a, a ≠ 0xff0f → a ≠ (s.sp + 0x10000 - 2) % 0x10000 →
      a ≠ ((s.sp + 0x10000 - 2) % 0x10000 + 1) % 0x10000 →
      (s.handleInterrupts).map (fun p => p.1.mem a) = some (s.mem a)) := by
  rw [handleInterrupts_fires s hime hpend, if_pos hlow]
  simp only [Option.map_some']
  refine ⟨?_, ?_, ?_, ?_, ?_⟩
  · simp only [mwrite8_ime, mwrite8_halt, mwrite8_pc, mwrite8_sp, stackPush_ime,
      stackPush_halt, stackPush_sp, stackPush_pc]
  · simp only [mwrite8_mem, stackPush_mem, store_same]
    rw [Nat.mod_eq_of_lt (masked_byte_lt _ _ (by omega))]
  · simp only [mwrite8_mem, stackPush_mem]
    rw [store_other _ _ _ _ hsp1, store_other _ _ _ _ (by omega), store_same, land_ff]
    simp only [Option.some.injEq]
    omega
  · simp only [mwrite8_mem, stackPush_mem]
    rw [store_other _ _ _ _ hsp2, store_same, Nat.shiftRight_eq_div_pow]
  · intro a ha1 ha2 ha3
    simp only [Option.map_some', mwrite8_mem, stackPush_mem]
    rw [store_other _ _ _ _ ha1, store_other _ _ _ _ ha3, store_other _ _ _ _ ha2]

/-- Claim C3 witness: with IF = IE = 0b11, PC = 0x0100, SP = 0xFFFE, the
VBlank interrupt (bit 0) is serviced first: IME cleared, PC = 0x0040,
SP = 0xFFFC, 4 cycle units, and IF becomes 0b10 — only bit 0 cleared. -/
theorem interrupt_dispatch_spec_witness :
    (cpuIntPending.handleInterrupts).map (fun p => (p.1.ime, p.1.halt, p.1.pc, p.1.sp, p.2)) =
      some (false, false, 0x0040, 0xfffc, 4) ∧
    (cpuIntPending.handleInterrupts).map (fun p => p.1.mem 0xff0f) = some 0x02 := by
  have h := interrupt_dispatch_spec cpuIntPending rfl (by decide) (by decide)
    (by decide) (by decide)
  refine ⟨?_, ?_⟩
  · rw [h.1]
    decide
  · rw [h.2.1]
    decide

/-! ## Claim C4 -/

/-- Claim C4 counterexample: halted CPU, IME clear, VBlank pending and
enabled (IE = IF = 1).  A `Cpu::cycle` call leaves the halt flag SET — the
`halt && !ime` early return in `handle_interrupts` fires before the pending
check, so the CPU is not unhalted, contradicting the claim's "regardless of
whether IME is set". -/
theorem halted_cycle_keeps_halt_without_ime :
    (cpuHaltedNoIme.cycle).map Cpu.halt = some true := by
  decide

/-- Claim C4 (amended): if the CPU is halted and `IE & IF != 0`, a
`Cpu::cycle` call clears the halt flag only when IME is also set (and then
services the interrupt, 4 cycle units); with IME clear the cycle is a
complete no-op — the CPU stays halted and the pending interrupt is not
serviced. -/
theorem halted_unhalt_requires_ime (s : Cpu) (hh : s.halt = true) :
    (s.ime = false → s.cycles ≤ s.maxCycles → s.cycle = some s) ∧
    (s.ime = true → s.mread8 0xffff &&& s.mread8 0xff0f ≠ 0 →
      trailingZeros8 (s.mread8 0xff0f &&& s.mread8 0xffff) ≤ 4 →
      (s.handleInterrupts).map (fun p => (p.1.halt, p.2)) = some (false, 4)) := by
  constructor
  · intro hime hcy
    have h1 : s.handleInterrupts = some (s, 0) := by
      show (if s.halt ∧ ¬ s.ime then some (s, 0) else _) = some (s, 0)
      rw [if_pos ⟨by rw [hh], by simp [hime]⟩]
    have hs1 : ({ s with cycles := s.cycles + 0 } : Cpu) = s := by
      rw [Nat.add_zero]
    show (s.handleInterrupts).bind _ = some s
    simp only [h1, Option.some_bind]
    rw [if_pos (show ({ s with cycles := s.cycles + 0 } : Cpu).halt = true from hh)]
    rw [Option.map_some',
      if_neg (show ¬ ({ s with cycles := s.cycles + 0 } : Cpu).cycles >
        ({ s with cycles := s.cycles + 0 } : Cpu).maxCycles from by
          simp only []
          omega)]
    rw [hs1]
  · intro hime hpend hlow
    rw [handleInterrupts_fires s hime hpend, if_pos hlow]
    simp only [Option.map_some', mwrite8_halt, stackPush_halt]

/-- Claim C4 witness: the no-IME branch at the concrete halted state (cycle
is the identity, halt stays set) and the IME branch at the corresponding
IME-set state (halt cleared, 4 cycle units). -/
theorem halted_unhalt_requires_ime_witness :
    cpuHaltedNoIme.cycle = some cpuHaltedNoIme ∧
    (cpuHaltedIme.handleInterrupts).map (fun p => (p.1.halt, p.2)) = some (false, 4) :=
  ⟨(halted_unhalt_requires_ime cpuHaltedNoIme rfl).1 rfl (by decide),
   (halted_unhalt_requires_ime cpuHaltedIme rfl).2 rfl (by decide) (by decide)⟩

/-! ## Claim C8 -/

/-- Claim C8 (confirmed): DAA executed with Subtract set, Half-Carry set and
Carry clear subtracts exactly 0x06 from A (wrapping), clears Half-Carry, and
leaves Carry clear. -/
theorem daa_after_sub (s : Cpu) (hn : s.nf = true) (hh : s.hf = true) (hc : s.cf = false) :
    (s.aluDaa).a = (s.a + 256 - 0x06) % 256 ∧ (s.aluDaa).hf = false ∧ (s.aluDaa).cf = false := by
  have hn' : (s.f &&& 0x40 != 0) = true := hn
  have hh' : (s.f &&& 0x20 != 0) = true := hh
  have hc' : (s.f &&& 0x10 != 0) = false := hc
  have hc0 : s.f &&& 0x10 = 0 := by
    simpa using hc'
  simp only [Cpu.aluDaa, Cpu.nf, Cpu.hf, Cpu.cf, hn', hh', hc', Cpu.setZf, Cpu.setHf, Cpu.setCf]
  simp [hn', Nat.and_assoc]
  constructor
  · rw [show (223 &&& 32 : Nat) = 0 from by decide]
    simp
  · rw [show (223 &&& 16 : Nat) = 16 from by decide]
    by_cases h0 : (s.a + 250) % 256 = 0 <;>
      simp [h0, Nat.and_distrib_right, Nat.and_assoc, hc0,
        show (128 &&& 16 : Nat) = 0 from by decide,
        show (127 &&& 16 : Nat) = 16 from by decide]

/-- Claim C8 witness: A = 0x42 with N and H set, C clear: DAA yields
A = 0x3C (= 0x42 - 0x06), H cleared, C still clear. -/
theorem daa_after_sub_witness :
    (cpuDaa.aluDaa).a = 0x3c ∧ (cpuDaa.aluDaa).hf = false ∧ (cpuDaa.aluDaa).cf = false := by
  have h := daa_after_sub cpuDaa rfl rfl rfl
  exact ⟨by rw [h.1]; decide, h.2.1, h.2.2⟩

/-! ## Claim C6 -/

/-- Claim C6 counterexample: with RAM disabled (the power-on default), a
read of 0xA000 returns 0x00, not the 0xFF the claim states. -/
theorem disabled_ram_reads_zero_not_ff :
    mbc1Fresh.read8 0xa000 = 0x00 ∧ (0x00 : Nat) ≠ 0xff :=
  ⟨by decide, by decide⟩

/-- Claim C6 (amended): an MBC1 write to 0x0000-0x1FFF enables RAM access
iff the written value's low nibble is 0xA; while RAM is disabled, every read
of 0xA000-0xBFFF returns 0x00 (not 0xFF), and every write there leaves the
cartridge RAM unchanged. -/
theorem mbc1_ram_enable_spec (m : Mbc1) (a v : Nat) :
    (a ≤ 0x1fff → (m.write8 a v).map Mbc1.ramEnabled = some (v &&& 0x0f == 0x0a)) ∧
    (m.ramEnabled = false → 0xa000 ≤ a → a ≤ 0xbfff →
      m.read8 a = 0x00 ∧ (m.write8 a v).map Mbc1.ram = some m.ram) := by
  constructor
  · intro h1
    simp only [Mbc1.write8, if_pos h1, Option.map_some']
  · intro hen h2 h3
    constructor
    · simp only [Mbc1.read8]
      rw [if_neg (by omega), if_neg (by omega), if_pos ⟨h2, h3⟩, if_neg (by simp [hen])]
    · simp only [Mbc1.write8]
      rw [if_neg (by omega), if_neg (by omega), if_neg (by omega), if_neg (by omega),
        if_pos ⟨h2, h3⟩, if_neg (by simp [hen])]
      simp only [Option.map_some']

/-- Claim C6 witness: writing 0x3A (low nibble 0xA) to 0x0000 enables RAM on
the fresh cartridge; on the fresh (disabled) cartridge a read of 0xA123
returns 0x00 and a write there leaves RAM untouched. -/
theorem mbc1_ram_enable_spec_witness :
    (mbc1Fresh.write8 0x0000 0x3a).map Mbc1.ramEnabled = some true ∧
    mbc1Fresh.read8 0xa123 = 0x00 ∧
    (mbc1Fresh.write8 0xa123 0x55).map Mbc1.ram = some mbc1Fresh.ram := by
  have h1 := (mbc1_ram_enable_spec mbc1Fresh 0x0000 0x3a).1 (by decide)
  have h2 := (mbc1_ram_enable_spec mbc1Fresh 0xa123 0x55).2 rfl (by decide) (by decide)
  exact ⟨by rw [h1]; decide, h2.1, h2.2⟩

/-! ## Claim C7: mod-32 bit lemmas and the bank invariant -/

theorem or_mod32 (a b : Nat) : (a ||| b) % 32 = a % 32 ||| b % 32 := by
  have h := or_mod_two_pow a b 5
  norm_num at h
  exact h

theorem and60_mod32 (x : Nat) : (x &&& 0x60) % 32 = 0 := by
  have h := and_mod_two_pow x 0x60 5
  norm_num at h
  rw [h]

theorem and9f_mod32 (x : Nat) : (x &&& 0x9f) % 32 = x % 32 := by
  have h := and_mod_two_pow x 0x9f 5
  norm_num at h
  rw [h, land_1f, Nat.mod_mod_of_dvd]
  exact ⟨1, rfl⟩

theorem and7f_mod32 (x : Nat) : (x &&& 0x7f) % 32 = x % 32 := by
  have h := and_mod_two_pow x 0x7f 5
  norm_num at h
  rw [h, land_1f, Nat.mod_mod_of_dvd]
  exact ⟨1, rfl⟩

theorem shl5_mod32 (v : Nat) : ((v &&& 0x03) <<< 5) % 32 = 0 := by
  rw [Nat.shiftLeft_eq]
  norm_num

/-- Invariant step: every (non-panicking) MBC1 write keeps the low 5 bits of
the bank register nonzero — a 0x2000-0x3FFF write forces 0 to 1, a
0x4000-0x5FFF write preserves the low 5 bits, others leave `bank` alone. -/
theorem write8_bank_mod32 (m : Mbc1) (a v : Nat) (m' : Mbc1)
    (h : m.write8 a v = some m') (hb : m.bank % 32 ≠ 0) : m'.bank % 32 ≠ 0 := by
  simp only [Mbc1.write8] at h
  split at h
  · cases h
    exact hb
  · split at h
    · cases h
      simp only
      rw [or_mod32, and60_mod32, Nat.zero_or]
      split
      · decide
      · next hnz =>
        rw [land_1f] at hnz ⊢
        omega
    · split at h
      · cases h
        simp only
        rw [or_mod32, and9f_mod32, shl5_mod32, Nat.or_zero]
        exact hb
      · split at h
        · split at h
          · cases h
            exact hb
          · split at h
            · cases h
              exact hb
            · exact Option.noConfusion h
        · split at h
          · split at h
            · cases h
              exact hb
            · cases h
              exact hb
          · cases h
            exact hb

/-- The bank invariant holds along every reachable write sequence. -/
theorem applyWrites_bank_mod32 (ws : List (Nat × Nat)) :
    ∀ m m' : Mbc1, m.bank % 32 ≠ 0 → Mbc1.applyWrites ws m = some m' → m'.bank % 32 ≠ 0 := by
  induction ws with
  | nil =>
    intro m m' hb h
    cases h
    exact hb
  | cons av ws ih =>
    intro m m' hb h
    obtain ⟨a, v⟩ := av
    simp only [Mbc1.applyWrites] at h
    cases hw : m.write8 a v with
    | none =>
      rw [hw] at h
      exact Option.noConfusion h
    | some mid =>
      rw [hw] at h
      exact ih mid m' (write8_bank_mod32 m a v mid hw hb) h

/-- With nonzero low 5 bank bits, the effective ROM bank is never one of the
holes 0x20/0x40/0x60 in either banking mode. -/
theorem romBank_ne_banked_holes (m : Mbc1) (hb : m.bank % 32 ≠ 0) :
    m.romBank ≠ 0x20 ∧ m.romBank ≠ 0x40 ∧ m.romBank ≠ 0x60 := by
  unfold Mbc1.romBank
  cases m.bankMode with
  | rom =>
    refine ⟨?_, ?_, ?_⟩ <;>
    · intro he
      apply hb
      have := congrArg (fun x => x % 32) he
      simp only at this
      rw [and7f_mod32] at this
      omega
  | ram =>
    simp only [land_1f]
    have := Nat.mod_lt m.bank (show 0 < 32 by norm_num)
    omega

/-- Claim C7 (confirmed): from the power-on MBC1 state, no sequence of
writes can make the switchable window map ROM bank 0x20 (nor 0x40/0x60);
writing 0x00 to the 0x2000-0x3FFF bank register on the fresh cartridge
yields effective bank 1, and so does writing 0x20 (its low 5 bits are 0 and
are forced to 1), so attempts to select bank 0x20 alias upward. -/
theorem mbc1_bank20_unreachable (rom ram : Nat → Nat) (ws : List (Nat × Nat)) (m' : Mbc1)
    (h : Mbc1.applyWrites ws (Mbc1.new rom ram) = some m') :
    (m'.romBank ≠ 0x20 ∧ m'.romBank ≠ 0x40 ∧ m'.romBank ≠ 0x60) ∧
    ((Mbc1.new rom ram).write8 0x2000 0x00).map Mbc1.romBank = some 0x01 ∧
    ((Mbc1.new rom ram).write8 0x2000 0x20).map Mbc1.romBank = some 0x01 := by
  refine ⟨?_, by simp [Mbc1.new, Mbc1.write8, Mbc1.romBank],
    by simp [Mbc1.new, Mbc1.write8, Mbc1.romBank]; decide⟩
  exact romBank_ne_banked_holes m'
    (applyWrites_bank_mod32 ws (Mbc1.new rom ram) m' (by simp [Mbc1.new]) h)

/-- Claim C7 witness: the empty write sequence from the power-on state. -/
theorem mbc1_bank20_unreachable_witness :
    ((Mbc1.new zeroMem zeroMem).romBank ≠ 0x20 ∧ (Mbc1.new zeroMem zeroMem).romBank ≠ 0x40 ∧
      (Mbc1.new zeroMem zeroMem).romBank ≠ 0x60) ∧
    ((Mbc1.new zeroMem zeroMem).write8 0x2000 0x00).map Mbc1.romBank = some 0x01 ∧
    ((Mbc1.new zeroMem zeroMem).write8 0x2000 0x20).map Mbc1.romBank = some 0x01 :=
  mbc1_bank20_unreachable zeroMem zeroMem [] (Mbc1.new zeroMem zeroMem) rfl

/-! ## Claim C9 -/

/-- Claim C9 (confirmed): while TAC bit 2 is set (and the TIMA clock's
period matches TAC's low 2 bits, an invariant established below),
`Timer::cycle` applies the increment step exactly
`(accumulator + cycles) / N` times with N = freqOf TAC ∈
{1024, 16, 64, 256}, carrying the remainder in the accumulator; each step
wraps TIMA, and on a wrap past 0xFF reloads TIMA from TMA and raises IF
bit 2 (`timaStep`).  While the enable bit is clear, TIMA, IF and the
accumulator are untouched.  The period invariant holds at power-on and is
preserved by `Timer::cycle` and by every `Timer::set`. -/
theorem timer_tima_spec (t : Timer) (c : Nat) (hper : t.tmaClock.period = freqOf t.tac) :
    (t.tac &&& 0x04 ≠ 0 →
      ((t.cycle c).tima, (t.cycle c).ifReg) =
        (timaStep t.tma)^[(t.tmaClock.n + c) / freqOf t.tac] (t.tima, t.ifReg) ∧
      (t.cycle c).tmaClock.n = (t.tmaClock.n + c) % freqOf t.tac ∧
      (freqOf t.tac = 1024 ∨ freqOf t.tac = 16 ∨ freqOf t.tac = 64 ∨ freqOf t.tac = 256)) ∧
    (t.tac &&& 0x04 = 0 → (t.cycle c).tima = t.tima ∧ (t.cycle c).ifReg = t.ifReg ∧
      (t.cycle c).tmaClock = t.tmaClock) ∧
    (t.cycle c).tmaClock.period = freqOf (t.cycle c).tac ∧
    (∀ a v, (t.set a v).tmaClock.period = freqOf (t.set a v).tac) ∧
    Timer.new.tmaClock.period = freqOf Timer.new.tac := by
  refine ⟨?_, ?_, ?_, ?_, by decide⟩
  · intro he
    simp only [Timer.cycle, Clock.cycle, if_pos he]
    refine ⟨by rw [← hper], by rw [hper], ?_⟩
    simp only [freqOf]
    split
    · exact Or.inl rfl
    · split
      · exact Or.inr (Or.inl rfl)
      · split
        · exact Or.inr (Or.inr (Or.inl rfl))
        · exact Or.inr (Or.inr (Or.inr rfl))
  · intro he
    simp only [Timer.cycle, Clock.cycle]
    rw [if_neg (show ¬ (t.tac &&& 0x04 ≠ 0) from by omega)]
    exact ⟨rfl, rfl, rfl⟩
  · by_cases he : t.tac &&& 0x04 ≠ 0
    · simp only [Timer.cycle, Clock.cycle, if_pos he]
      exact hper
    · simp only [Timer.cycle, Clock.cycle]
      rw [if_neg he]
      exact hper
  · intro a v
    simp only [Timer.set]
    split
    · exact hper
    · split
      · exact hper
      · split
        · exact hper
        · split
          · split
            · rfl
            · next hne =>
              have heq : t.tac &&& 0x03 = v &&& 0x03 := by omega
              rw [show ({ t with tac := v } : Timer).tmaClock.period = t.tmaClock.period from rfl,
                hper]
              simp only [freqOf, heq]
          · exact hper

/-- Claim C9 witness: TAC = 0b101 (enabled, N = 16), TIMA = 0xFF, TMA = 7,
32 elapsed T-cycles: two increments occur, the first overflows (reload 7,
IF bit 2 raised), the second counts to 8; with the enable bit clear, 5000
cycles leave TIMA at its old value 0x42. -/
theorem timer_tima_spec_witness :
    (Timer.cycle timerEnabled 32).tima = 0x08 ∧ (Timer.cycle timerEnabled 32).ifReg = 0x04 ∧
    (Timer.cycle timerDisabled 5000).tima = 0x42 := by
  have h1 := timer_tima_spec timerEnabled 32 (by decide)
  have h2 := timer_tima_spec timerDisabled 5000 (by decide)
  have e1 := (h1.1 (by decide)).1
  have e2 := (h2.2.1 (by decide)).1
  refine ⟨?_, ?_, by rw [e2]; decide⟩
  · have h := congrArg Prod.fst e1
    simp only at h
    rw [h]
    decide
  · have h := congrArg Prod.snd e1
    simp only at h
    rw [h]
    decide

/-! ## Claim C5 -/

/-- Claim C5 counterexample: at a = 0x0100 (cartridge ROM) over the all-zero
MBC1 cartridge, `write16` then `read16` returns the ROM bytes 0x0000, not
the written 0x1234 — the round trip does not hold for every address. -/
theorem mmu_rom_write16_no_roundtrip :
    (mmuTest.write16 0x0100 0x1234).map (fun m2 => m2.read16 0x0100) = some 0x0000 ∧
    (0x0000 : Nat) ≠ 0x1234 :=
  ⟨by decide, by decide⟩

/-- Claim C5 (amended): `write16`/`read16` are equivalent to two
`write8`/`read8` calls at `a` and `a+1` in little-endian order for every
a ≤ 0xFFFE (at 0xFFFF the u16 `addr + 1` leaves the type's range), and the
write16-then-read16 round trip returns the written value on RAM-backed
addresses — proved for the WRAM-bank-0 window 0xC000-0xCFFE — but not on
every address (ROM-mapped and prohibited regions do not store the bytes). -/
theorem mmu_write16_read16_spec (m : Mmu) (a v : Nat) :
    (0xc000 ≤ a → a ≤ 0xcffe → v < 0x10000 →
      (m.write16 a v).map (fun m2 => m2.read16 a) = some v) ∧
    (a ≤ 0xfffe →
      m.read16 a = m.read8 a ||| (m.read8 (a + 1)) <<< 8 ∧
      m.write16 a v = (m.write8 a (v &&& 0xff)).bind (fun m2 => m2.write8 (a + 1) (v >>> 8))) := by
  constructor
  · intro h1 h2 h3
    have hw1 : m.write8 a (v &&& 0xff) =
        some { m with wram0 := store m.wram0 (a &&& 0x0fff) (v &&& 0xff) } := by
      simp only [Mmu.write8]
      rw [if_neg (by omega), if_neg (by omega), if_neg (by omega), if_pos (by omega)]
    have hw2 : ∀ m1 : Mmu, m1.write8 (a + 1) (v >>> 8) =
        some { m1 with wram0 := store m1.wram0 ((a + 1) &&& 0x0fff) (v >>> 8) } := by
      intro m1
      simp only [Mmu.write8]
      rw [if_neg (by omega), if_neg (by omega), if_neg (by omega), if_pos (by omega)]
    have hr : ∀ (m2 : Mmu) (x : Nat), 0xc000 ≤ x → x ≤ 0xcfff →
        m2.read8 x = m2.wram0 (x &&& 0x0fff) := by
      intro m2 x hx1 hx2
      simp only [Mmu.read8]
      rw [if_neg (by omega), if_neg (by omega), if_neg (by omega), if_neg (by omega),
        if_pos (by omega)]
    simp only [Mmu.write16, hw1, Option.some_bind]
    rw [Nat.mod_eq_of_lt (by omega : a + 1 < 0x10000)]
    rw [hw2, Option.map_some']
    simp only [Mmu.read16]
    rw [Nat.mod_eq_of_lt (by omega : a + 1 < 0x10000)]
    rw [hr _ a h1 (by omega), hr _ (a + 1) (by omega) (by omega)]
    simp only
    rw [store_other _ _ _ _ (by simp only [land_fff]; omega), store_same, store_same]
    exact congrArg some (byte_recompose v)
  · intro h4
    constructor
    · simp only [Mmu.read16]
      rw [Nat.mod_eq_of_lt (by omega : a + 1 < 0x10000)]
    · simp only [Mmu.write16]
      rw [Nat.mod_eq_of_lt (by omega : a + 1 < 0x10000)]

/-- Claim C5 witness: the round trip at WRAM address 0xC100 with value
0x1234 over the concrete MMU. -/
theorem mmu_write16_read16_spec_witness :
    (mmuTest.write16 0xc100 0x1234).map (fun m2 => m2.read16 0xc100) = some 0x1234 :=
  (mmu_write16_read16_spec mmuTest 0xc100 0x1234).1 (by decide) (by decide) (by decide)
